import Mathlib

/-!
Verification development for the foundry-ai agent reconciliation scripts
(`src/utils/create_or_update_agents.py` and `src/utils/update_foundry_agents_mcp.py`).

The Python code is shallowly embedded: each relevant Python function becomes a
Lean definition over explicit data types; the network client is modelled by
returning the call that would be issued (`Option CreateVersionCall`,
`Option RemoteCall`) instead of performing it.  Strings are modelled as ASCII
Lean strings; Python string helpers (`int(...)`, `str.isdigit`, `str.strip`,
`str.split`) are embedded below as structurally recursive functions on the
character list of a string, so every definition evaluates by kernel reduction.
-/

namespace FoundryAI

/-! ## Python string/number primitives -/

/-- Strip whitespace from both ends of a character list
(Python `str.strip()`). -/
def trimChars (cs : List Char) : List Char :=
  ((cs.dropWhile Char.isWhitespace).reverse.dropWhile Char.isWhitespace).reverse

/-- Embedding of Python `s.strip()` (ASCII whitespace). -/
def pyStrip (s : String) : String :=
  ⟨trimChars s.data⟩

/-- Digits of a Python integer literal body after the first digit:
`[0-9]` possibly grouped by single underscores (`1_000` is valid Python,
`1__0` and `1_` are not). -/
def digitsLoop (acc : Nat) : List Char → Option Nat
  | [] => some acc
  | '_' :: c :: rest =>
      if c.isDigit then digitsLoop (acc * 10 + (c.toNat - 48)) rest else none
  | c :: rest =>
      if c.isDigit then digitsLoop (acc * 10 + (c.toNat - 48)) rest else none

/-- Nonempty run of digits (with underscore grouping) making up a Nat. -/
def startDigits : List Char → Option Nat
  | [] => none
  | c :: rest => if c.isDigit then digitsLoop (c.toNat - 48) rest else none

/-- Embedding of Python `int(s)` on an (ASCII) string: strip surrounding
whitespace, optional sign, then digits.  Returns `none` where Python raises
`ValueError`. -/
def pyIntParse (s : String) : Option Int :=
  match trimChars s.data with
  | [] => none
  | '+' :: rest => (startDigits rest).map Int.ofNat
  | '-' :: rest => (startDigits rest).map (fun n => -(n : Int))
  | cs => (startDigits cs).map Int.ofNat

/-- Embedding of Python `s.isdigit()` restricted to ASCII strings. -/
def pyIsdigit (s : String) : Bool :=
  !s.data.isEmpty && s.data.all Char.isDigit

/-- Embedding of Python `a or b` on two optional strings (`""` and `None`
are falsy). -/
def pyOrStr (a b : Option String) : Option String :=
  match a with
  | some s => if s = "" then b else some s
  | none => b

/-- Embedding of Python `max(l, key=key)` (raises on `[]`, hence `Option`):
returns the first element attaining the maximal key. -/
def pyMaxByKey {α : Type} (key : α → Int) : List α → Option α
  | [] => none
  | x :: xs => some (xs.foldl (fun best y => if key y > key best then y else best) x)

/-- Split a character list at every occurrence of `sep`
(Python `s.split(sep)`: empty pieces are kept, `""` gives one empty piece). -/
def splitOnChar (sep : Char) : List Char → List (List Char)
  | [] => [[]]
  | c :: rest =>
      match splitOnChar sep rest with
      | [] => if c = sep then [[], []] else [[c]]
      | g :: gs => if c = sep then [] :: g :: gs else (c :: g) :: gs

/-- Embedding of Python `s.split(",")`. -/
def pySplitCommas (s : String) : List String :=
  (splitOnChar ',' s.data).map (fun cs => ⟨cs⟩)

/-- Embedding of Python `part.split(sep, 1)` for a string containing `sep`:
the text before the first `sep` and the text after it. -/
def split1At (sep : Char) : List Char → List Char × List Char
  | [] => ([], [])
  | c :: rest =>
      if c = sep then ([], rest)
      else
        let r := split1At sep rest
        (c :: r.1, r.2)

/-- Embedding of Python `sorted(set(l))` for integers: insert keeping the
list strictly ascending (dropping duplicates). -/
def insertDedup (x : Int) : List Int → List Int
  | [] => [x]
  | y :: ys =>
      if x < y then x :: y :: ys
      else if x = y then y :: ys
      else y :: insertDedup x ys

/-- `sorted(set(l))`: strictly ascending list of the distinct elements. -/
def sortedDedup (l : List Int) : List Int :=
  l.foldr insertDedup []

/-- Embedding of Python `list(range(a, b + 1))`. -/
def rangeIncl (a b : Int) : List Int :=
  (List.range (b + 1 - a).toNat).map (fun i => a + (i : Int))

/-! ## Selection range parser (`parse_selection_indices`) -/

/-- The comma-separated tokens of the selection input, trimmed, empties
dropped (line 209 of `create_or_update_agents.py`). -/
def selectionParts (choice : String) : List String :=
  ((pySplitCommas choice).map pyStrip).filter (fun c => c ≠ "")

/-- The indices contributed by one token: a range `A-B` (invalid when either
bound fails to parse or `A > B`) or a single integer.  (The `len != 2` check
of the source never fires: `split("-", 1)` on a string containing `'-'`
always yields exactly two parts.) -/
def tokenIndices (part : String) : Option (List Int) :=
  if part.data.contains '-' then
    let rp := split1At '-' part.data
    match pyIntParse ⟨rp.1⟩, pyIntParse ⟨rp.2⟩ with
    | some start, some stop => if start > stop then none else some (rangeIncl start stop)
    | some _, none => none
    | none, _ => none
  else
    (pyIntParse part).map (fun n => [n])

/-- Accumulate the indices of all tokens, failing fast on the first bad
token (the `return None` branches of the source loop). -/
def collectIndices : List String → Option (List Int)
  | [] => some []
  | p :: ps =>
      match tokenIndices p with
      | none => none
      | some l => (collectIndices ps).map (fun rest => l ++ rest)

/-- Embedding of `parse_selection_indices(choice, max_index)`
(`create_or_update_agents.py`, lines 199-241). -/
def parse_selection_indices (choice : String) (max_index : Int) : Option (List Int) :=
  match collectIndices (selectionParts choice) with
  | none => none
  | some indices =>
      let sorted := sortedDedup indices
      match sorted with
      | [] => some []
      | a :: rest =>
          if a < 1 || (a :: rest).getLastD 0 > max_index then none
          else some (a :: rest)

/-! ## Data model

Python values appearing inside raw YAML/tool mappings.  Only the shapes this
codebase reads are modelled: strings, lists of strings (`allowed_tools`) and
numbers. -/

inductive PyVal where
  | str (s : String)
  | strs (l : List String)
  | num (q : Rat)
deriving DecidableEq

/-- A raw Python mapping (YAML tool entry or unknown tool shape), as an
association list keyed by field name. -/
def Dict := List (String × PyVal)

instance : DecidableEq Dict := inferInstanceAs (DecidableEq (List (String × PyVal)))

/-- `d.get(k)`: first binding of `k`, if any. -/
def dget (d : Dict) (k : String) : Option PyVal :=
  (d.find? (fun kv => kv.1 = k)).map (fun kv => kv.2)

/-- `d.get(k, default)` where the field is expected to be a string; a
present non-string value also falls back to the default (the model is
restricted to string-valued fields). -/
def dgetStrD (d : Dict) (k : String) (dflt : String) : String :=
  match dget d k with
  | some (PyVal.str s) => s
  | _ => dflt

/-- `d.get(k)` where the field is expected to be a string. -/
def dgetStr (d : Dict) (k : String) : Option String :=
  match dget d k with
  | some (PyVal.str s) => some s
  | _ => none

/-- `d.get(k)` where the field is expected to be a list of strings. -/
def dgetStrs (d : Dict) (k : String) : Option (List String) :=
  match dget d k with
  | some (PyVal.strs l) => some l
  | _ => none

/-- The data carried by a typed `MCPTool` SDK object. -/
structure McpData where
  server_label : String
  server_url : String
  project_connection_id : Option String
  allowed_tools : Option (List String)
  require_approval : Option String
deriving DecidableEq

/-- One tool binding as it appears in an `AgentDefinition`:
a typed `WebSearchPreviewTool`, a typed `MCPTool`, or a raw mapping that the
code passed through verbatim. -/
inductive Tool where
  | webSearch
  | mcpTool (m : McpData)
  | rawDict (d : Dict)
deriving DecidableEq

/-- A `PromptAgentDefinition` viewed as its keyword arguments: `none` means
the field was not passed (absent), mirroring that the scripts either filter
`None` values out or rely on the SDK treating `None` as absent. -/
structure AgentDefinition where
  kind : Option String
  model : Option String
  instructions : Option String
  temperature : Option Rat
  top_p : Option Rat
  tools : Option (List Tool)
  text : Option PyVal
deriving DecidableEq

/-- A remote agent version as returned by `list_versions` (the fields the
scripts read).  `version` is the ordinal as a string. -/
structure AgentVersion where
  name : String
  version : String
  definition : Option AgentDefinition
  description : Option String
deriving DecidableEq

/-- A `create_version` call issued against the remote store. -/
structure CreateVersionCall where
  agent_name : String
  definition : AgentDefinition
  description : Option String
deriving DecidableEq

/-- A remote mutation issued by the reconciler: `agents.create` or
`agents.create_version`. -/
inductive RemoteCall where
  | create (name : String) (defn : AgentDefinition) (description : Option String)
  | createVersion (name : String) (defn : AgentDefinition) (description : Option String)
deriving DecidableEq

/-- The declared-agent name a remote call is addressed to. -/
def RemoteCall.target : RemoteCall → String
  | RemoteCall.create n _ _ => n
  | RemoteCall.createVersion n _ _ => n

def RemoteCall.isCreate : RemoteCall → Bool
  | RemoteCall.create _ _ _ => true
  | _ => false

def RemoteCall.isCreateVersion : RemoteCall → Bool
  | RemoteCall.createVersion _ _ _ => true
  | _ => false

/-- The `definition:` block of one declared agent's YAML file (the keys
`build_definition` reads; `tools:` entries stay raw mappings).  A key whose
YAML value is null is modelled the same as an absent key, as both make
`def_block.get(...)` return `None`. -/
structure DefBlock where
  kind : Option String
  model : Option String
  instructions : Option String
  temperature : Option Rat
  top_p : Option Rat
  tools : Option (List Dict)
  text : Option PyVal
deriving DecidableEq

/-- One declared agent's YAML payload as read by `process_agent`:
`name`, `description`, `metadata.description` and the `definition:` block.
A present-but-empty definition mapping (falsy in Python, hence skipped
exactly like a missing one) is modelled as `none`. -/
structure AgentPayload where
  name : Option String
  description : Option String
  metadata_description : Option String
  definition : Option DefBlock
deriving DecidableEq

/-- Reconciliation mode: menu choices `"1"` / `"2"` / `"3"`. -/
inductive Mode where
  | createMissing
  | updateExisting
  | sync
deriving DecidableEq

/-! ## Building declared definitions (`build_tools`, `build_definition`) -/

/-- How `build_tools` converts one raw YAML tool mapping
(`create_or_update_agents.py`, lines 143-159): `web_search_preview` and
`mcp` become typed SDK tools, anything else falls back to the raw dict. -/
def buildOneTool (tool : Dict) : Tool :=
  if dget tool "type" = some (PyVal.str "web_search_preview") then
    Tool.webSearch
  else if dget tool "type" = some (PyVal.str "mcp") then
    Tool.mcpTool
      { server_label := dgetStrD tool "server_label" ""
        server_url := dgetStrD tool "server_url" ""
        project_connection_id := dgetStr tool "project_connection_id"
        allowed_tools := dgetStrs tool "allowed_tools"
        require_approval := dgetStr tool "require_approval" }
  else
    Tool.rawDict tool

/-- Embedding of `build_tools(tool_defs)` (`create_or_update_agents.py`,
lines 138-161).  `None` or an empty list comes back as `None`; the final
`tools if tools else None` keeps a nonempty result. -/
def build_tools (tool_defs : Option (List Dict)) : Option (List Tool) :=
  match tool_defs with
  | none => none
  | some [] => none
  | some l =>
      let tools := l.map buildOneTool
      if tools.isEmpty then none else some tools

/-- One keyword argument value of `PromptAgentDefinition(**filtered)`. -/
inductive KwVal where
  | s (v : String)
  | r (v : Rat)
  | toolList (v : List Tool)
  | pv (v : PyVal)
deriving DecidableEq

/-- The `kwargs` dict built by `build_definition` (lines 166-175), before
the `None` filter: `kind` defaults to `"prompt"`, every other entry is the
optional YAML value (tools through `build_tools`). -/
def build_definition_kwargs (db : DefBlock) : List (String × Option KwVal) :=
  [("kind", some (KwVal.s (db.kind.getD "prompt"))),
   ("model", db.model.map KwVal.s),
   ("instructions", db.instructions.map KwVal.s),
   ("temperature", db.temperature.map KwVal.r),
   ("top_p", db.top_p.map KwVal.r),
   ("tools", (build_tools db.tools).map KwVal.toolList),
   ("text", db.text.map KwVal.pv)]

/-- The `filtered` dict of line 178: `{k: v for k, v in kwargs.items() if v
is not None}`. -/
def build_definition_filtered (db : DefBlock) : List (String × KwVal) :=
  (build_definition_kwargs db).filterMap
    (fun kv => match kv.2 with | some v => some (kv.1, v) | none => none)

/-- The field names actually passed to `PromptAgentDefinition` — i.e. the
fields sent to the remote store for a declared agent. -/
def sent_fields (db : DefBlock) : List String :=
  (build_definition_filtered db).map (fun kv => kv.1)

/-- Embedding of `build_definition(def_block)` (lines 164-179) as the
resulting definition record (`none` = field filtered out / absent). -/
def build_definition (db : DefBlock) : AgentDefinition :=
  { kind := some (db.kind.getD "prompt")
    model := db.model
    instructions := db.instructions
    temperature := db.temperature
    top_p := db.top_p
    tools := build_tools db.tools
    text := db.text }

/-! ## Version selectors -/

/-- `version_key` inside `get_latest_agent_version` (lines 331-335):
`int(version.version)`, with `TypeError`/`ValueError` caught to `-1`. -/
def version_key (v : AgentVersion) : Int :=
  (pyIntParse v.version).getD (-1)

/-- Embedding of `get_latest_agent_version` (`create_or_update_agents.py`,
lines 326-337), applied to the fetched version list: `None` for an empty
list, else `max(versions, key=version_key)`. -/
def get_latest_agent_version (versions : List AgentVersion) : Option AgentVersion :=
  pyMaxByKey version_key versions

/-- The key used by `get_agent_details` (`update_foundry_agents_mcp.py`,
line 55): `int(x.version) if x.version.isdigit() else 0`. -/
def digit_key (v : AgentVersion) : Int :=
  if pyIsdigit v.version then (pyIntParse v.version).getD 0 else 0

/-- Embedding of `get_agent_details` (`update_foundry_agents_mcp.py`,
lines 46-56), applied to the fetched version list. -/
def get_agent_details (versions : List AgentVersion) : Option AgentVersion :=
  pyMaxByKey digit_key versions

/-- Spec-side ordinal, following the spec's words for comparison with the
code: the ordinal parsed as a non-negative integer, and `-1` (always
losing) for any entry "whose ordinal cannot be parsed as a non-negative
integer". -/
def specOrdinal (v : AgentVersion) : Int :=
  match pyIntParse v.version with
  | some n => if 0 ≤ n then n else -1
  | none => -1

/-! ## MCP helpers and maintenance transforms -/

/-- The MCP test of `find_mcp_tools` / `update_mcp_tools_to_auto_approve`
(lines 348 and 372): `hasattr(tool, "server_label")` (true exactly for a
typed `MCPTool`) or a raw dict with `type == "mcp"`. -/
def isMcpShaped (t : Tool) : Bool :=
  match t with
  | Tool.mcpTool _ => true
  | Tool.rawDict d => dget d "type" = some (PyVal.str "mcp")
  | Tool.webSearch => false

/-- `hasattr(tool, 'server_label')` alone — the MCP test used by
`update_agent_mcp_approval` (`update_foundry_agents_mcp.py`, line 102). -/
def isTypedMcp (t : Tool) : Bool :=
  match t with
  | Tool.mcpTool _ => true
  | _ => false

/-- `getattr(tool, "server_label", "")`: only a typed MCP tool has the
attribute, every other tool (including a raw dict) yields the default. -/
def attrLabel (t : Tool) : String :=
  match t with
  | Tool.mcpTool m => m.server_label
  | _ => ""

/-- `getattr(tool, "server_url", "")`. -/
def attrUrl (t : Tool) : String :=
  match t with
  | Tool.mcpTool m => m.server_url
  | _ => ""

/-- `getattr(tool, "project_connection_id", None)`. -/
def attrConn (t : Tool) : Option String :=
  match t with
  | Tool.mcpTool m => m.project_connection_id
  | _ => none

/-- `getattr(tool, "allowed_tools", None)`. -/
def attrAllowed (t : Tool) : Option (List String) :=
  match t with
  | Tool.mcpTool m => m.allowed_tools
  | _ => none

/-- The replacement `MCPTool(...)` built for an MCP-shaped tool by
`update_mcp_tools_to_auto_approve` (lines 373-381): fields read back with
`getattr` defaults, `require_approval` forced to `"never"`. -/
def rewriteMcpTool (t : Tool) : Tool :=
  Tool.mcpTool
    { server_label := attrLabel t
      server_url := attrUrl t
      project_connection_id := attrConn t
      allowed_tools := attrAllowed t
      require_approval := some "never" }

/-- One iteration of the `for tool in current_tools` loop of
`update_mcp_tools_to_auto_approve`: rewrite MCP-shaped tools, keep the
rest. -/
def mcpStep (t : Tool) : Tool :=
  if isMcpShaped t then rewriteMcpTool t else t

/-- The `updated_tools` list of `update_mcp_tools_to_auto_approve`. -/
def mcpMapTools (ts : List Tool) : List Tool :=
  ts.map mcpStep

/-- The `changed` flag of `update_mcp_tools_to_auto_approve`: true exactly
when some tool took the MCP branch. -/
def mcpChanged (ts : List Tool) : Bool :=
  ts.any isMcpShaped

/-- Embedding of `update_mcp_tools_to_auto_approve(project_client,
agent_details)` (`create_or_update_agents.py`, lines 356-404), modelled as
the `create_version` call it issues (`none` = one of the skip branches). -/
def update_mcp_tools_to_auto_approve (agent_details : AgentVersion) :
    Option CreateVersionCall :=
  match agent_details.definition with
  | none => none
  | some definition =>
      match definition.model with
      | none => none
      | some model =>
          if model = "" then none
          else
            let current_tools := definition.tools.getD []
            let updated_tools := mcpMapTools current_tools
            if mcpChanged current_tools then
              some
                { agent_name := agent_details.name
                  definition :=
                    { kind := definition.kind
                      model := some model
                      instructions := definition.instructions
                      tools := if updated_tools.isEmpty then none else some updated_tools
                      temperature := definition.temperature
                      top_p := definition.top_p
                      text := definition.text }
                  description := agent_details.description }
            else none

/-- Embedding of `remove_temperature_params(project_client, agent_details)`
(`create_or_update_agents.py`, lines 407-434), modelled as the
`create_version` call it issues. -/
def remove_temperature_params (agent_details : AgentVersion) :
    Option CreateVersionCall :=
  match agent_details.definition with
  | none => none
  | some definition =>
      match definition.model with
      | none => none
      | some model =>
          if model = "" then none
          else
            let current_tools := definition.tools.getD []
            some
              { agent_name := agent_details.name
                definition :=
                  { kind := definition.kind
                    model := some model
                    instructions := definition.instructions
                    tools := if current_tools.isEmpty then none else some current_tools
                    temperature := none
                    top_p := none
                    text := definition.text }
                description := agent_details.description }

/-- The replacement tool built by `update_agent_mcp_approval`
(`update_foundry_agents_mcp.py`, lines 104-110) for a typed MCP tool:
direct attribute reads, so all four data fields are preserved. -/
def rewriteTypedMcp (m : McpData) : Tool :=
  Tool.mcpTool
    { server_label := m.server_label
      server_url := m.server_url
      project_connection_id := m.project_connection_id
      allowed_tools := m.allowed_tools
      require_approval := some "never" }

/-- One iteration of the tool loop of `update_agent_mcp_approval`: only
typed MCP tools (`hasattr(tool, 'server_label')`) are rewritten; raw dicts
— even with `type == "mcp"` — pass through unchanged. -/
def typedMcpStep (t : Tool) : Tool :=
  match t with
  | Tool.mcpTool m => rewriteTypedMcp m
  | t => t

/-- Embedding of `update_agent_mcp_approval(project_client, agent)`
(`update_foundry_agents_mcp.py`, lines 81-136), modelled as the
`create_version` call it issues.  Note the constructed
`PromptAgentDefinition` omits `kind` and `text`, and the `create_version`
call passes no description. -/
def update_agent_mcp_approval (agent : AgentVersion) : Option CreateVersionCall :=
  match agent.definition with
  | none => none
  | some definition =>
      let current_tools := definition.tools.getD []
      if current_tools.isEmpty then none
      else
        let updated_tools := current_tools.map typedMcpStep
        let mcp_updated := current_tools.any isTypedMcp
        if mcp_updated then
          some
            { agent_name := agent.name
              definition :=
                { kind := none
                  model := some (definition.model.getD "")
                  instructions := definition.instructions
                  tools := some updated_tools
                  temperature := definition.temperature
                  top_p := definition.top_p
                  text := none }
              description := none }
        else none

/-- Embedding of `remove_temperature_for_gpt5(project_client, agent)`
(`update_foundry_agents_mcp.py`, lines 139-166), modelled as the
`create_version` call it issues.  It does not guard on the model, omits
`kind` and `text` from the constructed definition and passes no
description. -/
def remove_temperature_for_gpt5 (agent : AgentVersion) : Option CreateVersionCall :=
  match agent.definition with
  | none => none
  | some definition =>
      let current_tools := definition.tools.getD []
      some
        { agent_name := agent.name
          definition :=
            { kind := none
              model := definition.model
              instructions := definition.instructions
              tools := if current_tools.isEmpty then none else some current_tools
              temperature := none
              top_p := none
              text := none }
          description := none }

/-- Whether `needle` starts `hay`. -/
def startsWithChars : List Char → List Char → Bool
  | [], _ => true
  | _ :: _, [] => false
  | a :: as, b :: bs => a = b && startsWithChars as bs

/-- Whether `needle` occurs contiguously inside `hay`
(Python `needle in hay` on strings). -/
def containsSub (needle : List Char) : List Char → Bool
  | [] => startsWithChars needle []
  | c :: rest => startsWithChars needle (c :: rest) || containsSub needle rest

/-- Embedding of `is_gpt5_model` (`create_or_update_agents.py`, line 352),
restricted to ASCII model names: `bool(model_name and "gpt-5" in
model_name.lower())`. -/
def is_gpt5_model (model_name : Option String) : Bool :=
  match model_name with
  | none => false
  | some s => s ≠ "" && containsSub "gpt-5".data (s.data.map Char.toLower)

/-! ## Reconciler (`process_agent`, batch loop of `main`) -/

/-- Embedding of `process_agent(project_client, mode, agent_payload, path,
existing)` (`create_or_update_agents.py`, lines 437-471), modelled as the
remote mutation it issues (`none` = skipped).  `existing` is the
name-to-id index from `list_existing_agents`. -/
def process_agent (mode : Mode) (p : AgentPayload)
    (existing : List (String × String)) : Option RemoteCall :=
  match p.name with
  | none => none
  | some agent_name =>
      if agent_name = "" then none
      else
        match p.definition with
        | none => none
        | some def_block =>
            let description := pyOrStr p.description p.metadata_description
            let definition := build_definition def_block
            let agent_exists := existing.any (fun kv => kv.1 = agent_name)
            if mode = Mode.createMissing && agent_exists then none
            else if mode = Mode.updateExisting && !agent_exists then none
            else if agent_exists then
              some (RemoteCall.createVersion agent_name definition description)
            else
              some (RemoteCall.create agent_name definition description)

/-- The calls a batch would issue if every agent were processed (one
`process_agent` result per payload, in input order). -/
def batchCalls (mode : Mode) (existing : List (String × String))
    (payloads : List AgentPayload) : List RemoteCall :=
  payloads.flatMap (fun p => (process_agent mode p existing).toList)

/-- Embedding of the `for info in selection: process_agent(...)` loop of
`main` (`create_or_update_agents.py`, lines 555-556).  `fails` says which
remote calls raise an adapter exception; the loop body has no exception
handler, so the first failing call aborts the loop.  Result: the calls
actually attempted (in order, including the failing one) and whether the
batch aborted. -/
def run_batch (mode : Mode) (existing : List (String × String))
    (fails : RemoteCall → Bool) : List AgentPayload → List RemoteCall × Bool
  | [] => ([], false)
  | p :: ps =>
      match process_agent mode p existing with
      | none => run_batch mode existing fails ps
      | some c =>
          if fails c then ([c], true)
          else
            let r := run_batch mode existing fails ps
            (c :: r.1, r.2)

/-! ## Supporting lemmas -/

theorem foldl_best_spec {α : Type} (key : α → Int) (l : List α) (acc : α) :
    (l.foldl (fun best y => if key y > key best then y else best) acc = acc ∨
       l.foldl (fun best y => if key y > key best then y else best) acc ∈ l) ∧
    key acc ≤ key (l.foldl (fun best y => if key y > key best then y else best) acc) ∧
    ∀ v ∈ l, key v ≤ key (l.foldl (fun best y => if key y > key best then y else best) acc) := by
  induction l generalizing acc with
  | nil => simp
  | cons x xs ih =>
    simp only [List.foldl_cons]
    rcases ih (if key x > key acc then x else acc) with ⟨hmem, hge, hall⟩
    by_cases hx : key x > key acc
    · rw [if_pos hx] at hmem hge hall ⊢
      refine ⟨?_, le_trans (le_of_lt hx) hge, ?_⟩
      · rcases hmem with h | h
        · exact Or.inr (List.mem_cons.mpr (Or.inl h))
        · exact Or.inr (List.mem_cons_of_mem x h)
      · intro v hv
        rcases List.mem_cons.mp hv with rfl | hv
        · exact hge
        · exact hall v hv
    · rw [if_neg hx] at hmem hge hall ⊢
      refine ⟨?_, hge, ?_⟩
      · rcases hmem with h | h
        · exact Or.inl h
        · exact Or.inr (List.mem_cons_of_mem x h)
      · intro v hv
        rcases List.mem_cons.mp hv with rfl | hv
        · exact le_trans (le_of_not_lt hx) hge
        · exact hall v hv

theorem pyMaxByKey_spec {α : Type} (key : α → Int) (l : List α) (r : α)
    (h : pyMaxByKey key l = some r) : r ∈ l ∧ ∀ v ∈ l, key v ≤ key r := by
  cases l with
  | nil => simp [pyMaxByKey] at h
  | cons x xs =>
    simp only [pyMaxByKey, Option.some.injEq] at h
    rcases foldl_best_spec key xs x with ⟨hmem, hge, hall⟩
    subst h
    constructor
    · rcases hmem with h | h
      · exact List.mem_cons.mpr (Or.inl h)
      · exact List.mem_cons_of_mem x h
    · intro v hv
      rcases List.mem_cons.mp hv with rfl | hv
      · exact hge
      · exact hall v hv

theorem insertDedup_mem (x y : Int) (l : List Int) :
    y ∈ insertDedup x l ↔ y = x ∨ y ∈ l := by
  induction l with
  | nil => simp [insertDedup]
  | cons z zs ih =>
    simp only [insertDedup]
    by_cases h1 : x < z
    · simp [if_pos h1]
    · by_cases h2 : x = z
      · subst h2
        simp only [if_neg h1, eq_self_iff_true, if_true, List.mem_cons]
        tauto
      · simp only [if_neg h1, if_neg h2, List.mem_cons, ih]
        tauto

theorem insertDedup_sorted (x : Int) (l : List Int) (h : l.Sorted (· < ·)) :
    (insertDedup x l).Sorted (· < ·) := by
  induction l with
  | nil => simp [insertDedup]
  | cons z zs ih =>
    rcases List.sorted_cons.mp h with ⟨hz, hzs⟩
    simp only [insertDedup]
    by_cases h1 : x < z
    · rw [if_pos h1]
      refine List.sorted_cons.mpr ⟨?_, h⟩
      intro b hb
      rcases List.mem_cons.mp hb with rfl | hb
      · exact h1
      · exact lt_trans h1 (hz b hb)
    · by_cases h2 : x = z
      · rw [if_neg h1, if_pos h2]
        exact h
      · rw [if_neg h1, if_neg h2]
        refine List.sorted_cons.mpr ⟨?_, ih hzs⟩
        intro b hb
        rcases (insertDedup_mem x b zs).mp hb with rfl | hb
        · omega
        · exact hz b hb

theorem sortedDedup_sorted (l : List Int) : (sortedDedup l).Sorted (· < ·) := by
  induction l with
  | nil => simp [sortedDedup]
  | cons x xs ih => exact insertDedup_sorted x (sortedDedup xs) ih

theorem sorted_head_le (a : Int) (rest : List Int)
    (h : (a :: rest).Sorted (· < ·)) : ∀ i ∈ a :: rest, a ≤ i := by
  intro i hi
  rcases List.mem_cons.mp hi with rfl | hi
  · exact le_refl i
  · exact le_of_lt ((List.sorted_cons.mp h).1 i hi)

theorem sorted_le_getLastD (l : List Int) (d : Int) (h : l.Sorted (· < ·)) :
    ∀ i ∈ l, i ≤ l.getLastD d := by
  induction l generalizing d with
  | nil => simp
  | cons a rest ih =>
    intro i hi
    cases rest with
    | nil =>
      simp only [List.mem_singleton] at hi
      simp [hi]
    | cons b bs =>
      rcases List.sorted_cons.mp h with ⟨ha, hrest⟩
      rw [List.getLastD_cons]
      rcases List.mem_cons.mp hi with rfl | hi
      · calc i ≤ b := le_of_lt (ha b (List.mem_cons_self b bs))
          _ ≤ (b :: bs).getLastD i :=
            ih i hrest b (List.mem_cons_self b bs)
      · exact ih i hrest i hi

theorem collectIndices_none (parts : List String) (p : String)
    (hp : p ∈ parts) (hbad : tokenIndices p = none) :
    collectIndices parts = none := by
  induction parts with
  | nil => cases hp
  | cons q qs ih =>
    rcases List.mem_cons.mp hp with rfl | hp
    · simp [collectIndices, hbad]
    · simp only [collectIndices]
      cases tokenIndices q with
      | none => rfl
      | some l => simp [ih hp]

theorem isMcpShaped_rewrite (t : Tool) : isMcpShaped (rewriteMcpTool t) = true := by
  simp [rewriteMcpTool, isMcpShaped]

theorem isMcpShaped_mcpStep (t : Tool) : isMcpShaped (mcpStep t) = isMcpShaped t := by
  by_cases h : isMcpShaped t
  · simp [mcpStep, h, isMcpShaped_rewrite]
  · simp [mcpStep, h]

theorem attrLabel_mcpTool (m : McpData) : attrLabel (Tool.mcpTool m) = m.server_label := rfl

theorem mcpStep_idem (t : Tool) : mcpStep (mcpStep t) = mcpStep t := by
  by_cases h : isMcpShaped t
  · simp only [mcpStep, h, if_true, isMcpShaped_rewrite]
    cases t with
    | webSearch => simp [isMcpShaped] at h
    | mcpTool m => rfl
    | rawDict d => rfl
  · simp [mcpStep, h]

theorem mcpMapTools_idem (ts : List Tool) :
    mcpMapTools (mcpMapTools ts) = mcpMapTools ts := by
  induction ts with
  | nil => rfl
  | cons t ts ih =>
    simp only [mcpMapTools, List.map_cons] at ih ⊢
    rw [mcpStep_idem, ih]

theorem mcpChanged_mapTools (ts : List Tool) :
    mcpChanged (mcpMapTools ts) = mcpChanged ts := by
  induction ts with
  | nil => rfl
  | cons t ts ih =>
    simp only [mcpChanged, mcpMapTools, List.map_cons, List.any_cons] at ih ⊢
    rw [isMcpShaped_mcpStep, ih]

theorem mcpChanged_ne_nil (ts : List Tool) (h : mcpChanged ts = true) : ts ≠ [] := by
  intro hnil
  subst hnil
  simp [mcpChanged] at h

theorem existsMem_any_fst (e : List (String × String)) (nm : String) :
    e.any (fun kv => kv.1 = nm) = (e.map Prod.fst).any (fun k => k = nm) := by
  induction e with
  | nil => rfl
  | cons kv rest ih => simp [ih]

theorem specOrdinal_eq_max (v : AgentVersion) :
    specOrdinal v = max (version_key v) (-1) := by
  unfold specOrdinal version_key
  cases pyIntParse v.version with
  | none => simp
  | some n =>
    by_cases hn : 0 ≤ n
    · simp only [hn, if_pos, Option.getD_some]
      omega
    · simp only [hn, if_neg, Option.getD_some, not_false_iff]
      omega

/-! ## Claim theorems -/

/-- C5: for every input string and upper bound, `parse_selection_indices`
returns either a deduplicated ascending list of 1-based indices (every
index between 1 and the bound) or a failure, never a partial result; a
parse failure in any comma-separated token invalidates the whole input; a
reversed range is invalid; empty input is valid and selects nothing; and
the claim's concrete examples hold: `"1-3,5,7-9"` with bound 10 yields
`{1,2,3,5,7,8,9}`, `"5-2"` is invalid, `""` is valid and empty, `"2,2,1"`
with bound 3 yields `{1,2}`, `"1-3"` with bound 2 is invalid. -/
theorem selection_parser_contract :
    (∀ choice bound l, parse_selection_indices choice bound = some l →
        l.Sorted (· < ·) ∧ ∀ i ∈ l, 1 ≤ i ∧ i ≤ bound)
    ∧ (∀ choice bound p, p ∈ selectionParts choice → tokenIndices p = none →
        parse_selection_indices choice bound = none)
    ∧ parse_selection_indices "1-3,5,7-9" 10 = some [1, 2, 3, 5, 7, 8, 9]
    ∧ parse_selection_indices "5-2" 10 = none
    ∧ parse_selection_indices "" 5 = some []
    ∧ parse_selection_indices "2,2,1" 3 = some [1, 2]
    ∧ parse_selection_indices "1-3" 2 = none := by
  refine ⟨?_, ?_, by decide, by decide, by decide, by decide, by decide⟩
  · intro choice bound l h
    unfold parse_selection_indices at h
    split at h
    · exact absurd h (by simp)
    · rename_i indices heq
      dsimp only at h
      split at h
      · rename_i heq2
        have hl : l = [] := by
          simpa using h.symm
        subst hl
        exact ⟨List.sorted_nil, by simp⟩
      · rename_i a rest heq2
        split at h
        · exact absurd h (by simp)
        · rename_i hcond
          have hl : l = a :: rest := by
            simpa using h.symm
          subst hl
          have hsorted : (a :: rest).Sorted (· < ·) := heq2 ▸ sortedDedup_sorted indices
          have hbounds : 1 ≤ a ∧ (a :: rest).getLastD 0 ≤ bound := by
            simp only [Bool.or_eq_true, decide_eq_true_eq, not_or] at hcond
            omega
          refine ⟨hsorted, ?_⟩
          intro i hi
          constructor
          · exact le_trans hbounds.1 (sorted_head_le a rest hsorted i hi)
          · exact le_trans (sorted_le_getLastD (a :: rest) 0 hsorted i hi) hbounds.2
  · intro choice bound p hp hbad
    unfold parse_selection_indices
    rw [collectIndices_none (selectionParts choice) p hp hbad]

/-- C5 witness: the universally quantified parts of
`selection_parser_contract` evaluated at concrete inputs. -/
theorem selection_parser_contract_witness :
    (List.Sorted (· < ·) ([1, 2] : List Int) ∧ ∀ i ∈ ([1, 2] : List Int), 1 ≤ i ∧ i ≤ 3)
    ∧ parse_selection_indices "7-,3" 10 = none :=
  ⟨selection_parser_contract.1 "2,2,1" 3 [1, 2] (by decide),
   selection_parser_contract.2.1 "7-,3" 10 "7-" (by decide) (by decide)⟩

/-- C2 counterexample: the claim says the selector treats an entry whose
ordinal cannot be parsed as a non-negative integer as ordinal `-1`, always
losing.  `get_agent_details` instead keys such an entry as `0`
(`int(x.version) if x.version.isdigit() else 0`), so on
`[version "x", version "0"]` it returns the unparseable entry even though
the other entry has the strictly greatest spec ordinal. -/
theorem version_selector_claim_cex :
    get_agent_details [⟨"a", "x", none, none⟩, ⟨"a", "0", none, none⟩] =
        some ⟨"a", "x", none, none⟩
    ∧ specOrdinal ⟨"a", "x", none, none⟩ < specOrdinal ⟨"a", "0", none, none⟩
    ∧ (⟨"a", "x", none, none⟩ : AgentVersion) ≠ ⟨"a", "0", none, none⟩ := by
  refine ⟨by decide, by decide, by decide⟩

/-- C2 amended: both selectors return "no version" on the empty sequence
and never fail (they are total functions); `get_latest_agent_version`
satisfies the claim — it returns an entry maximizing the spec ordinal
(unparseable-as-non-negative treated as `-1`, always losing) — while
`get_agent_details` instead keys any non-digit-string ordinal as `0`, so
such entries tie with (and, coming earlier, win over) entries of ordinal
`0`; it still returns an entry with the maximal such key. -/
theorem version_selector_amended :
    (get_latest_agent_version [] = none ∧ get_agent_details [] = none)
    ∧ (∀ v vs, (get_latest_agent_version (v :: vs)).isSome = true
        ∧ (get_agent_details (v :: vs)).isSome = true)
    ∧ (∀ versions r, get_latest_agent_version versions = some r →
        r ∈ versions ∧ ∀ v ∈ versions, specOrdinal v ≤ specOrdinal r)
    ∧ (∀ versions r, get_agent_details versions = some r →
        r ∈ versions ∧ ∀ v ∈ versions, digit_key v ≤ digit_key r) := by
  refine ⟨⟨rfl, rfl⟩, fun v vs => ⟨rfl, rfl⟩, ?_, ?_⟩
  · intro versions r h
    rcases pyMaxByKey_spec version_key versions r h with ⟨hmem, hall⟩
    refine ⟨hmem, ?_⟩
    intro v hv
    have h1 := hall v hv
    have e1 := specOrdinal_eq_max v
    have e2 := specOrdinal_eq_max r
    omega
  · intro versions r h
    exact pyMaxByKey_spec digit_key versions r h

/-- C2 amended witness: `version_selector_amended` evaluated on a concrete
two-element version list. -/
theorem version_selector_amended_witness :
    ((⟨"a", "2", none, none⟩ : AgentVersion) ∈
        ([⟨"a", "1", none, none⟩, ⟨"a", "2", none, none⟩] : List AgentVersion))
    ∧ ∀ v ∈ ([⟨"a", "1", none, none⟩, ⟨"a", "2", none, none⟩] : List AgentVersion),
        specOrdinal v ≤ specOrdinal ⟨"a", "2", none, none⟩ :=
  version_selector_amended.2.2.1 [⟨"a", "1", none, none⟩, ⟨"a", "2", none, none⟩]
    ⟨"a", "2", none, none⟩ (by decide)

theorem mem_sent_fields (db : DefBlock) (f : String) :
    f ∈ sent_fields db ↔
      f = "kind"
      ∨ (f = "model" ∧ db.model.isSome = true)
      ∨ (f = "instructions" ∧ db.instructions.isSome = true)
      ∨ (f = "temperature" ∧ db.temperature.isSome = true)
      ∨ (f = "top_p" ∧ db.top_p.isSome = true)
      ∨ (f = "tools" ∧ (build_tools db.tools).isSome = true)
      ∨ (f = "text" ∧ db.text.isSome = true) := by
  rcases db with ⟨k, m, i, te, tp, tl, tx⟩
  cases hbt : build_tools tl <;> cases m <;> cases i <;> cases te <;> cases tp <;> cases tx <;>
    simp [sent_fields, build_definition_filtered, build_definition_kwargs, hbt]

/-- C9: a field absent in the declared source (`model`, `instructions`,
`temperature`, `top_p`, `tools`, `text` i.e. response_format) is never
among the keyword arguments `build_definition` passes to
`PromptAgentDefinition` — the `None` filter of line 178 drops it, so it is
not sent to the remote store. -/
theorem declared_definition_absent_fields :
    ∀ db : DefBlock,
      (db.model = none → "model" ∉ sent_fields db)
      ∧ (db.instructions = none → "instructions" ∉ sent_fields db)
      ∧ (db.temperature = none → "temperature" ∉ sent_fields db)
      ∧ (db.top_p = none → "top_p" ∉ sent_fields db)
      ∧ (db.tools = none → "tools" ∉ sent_fields db)
      ∧ (db.text = none → "text" ∉ sent_fields db) := by
  intro db
  refine ⟨?_, ?_, ?_, ?_, ?_, ?_⟩ <;> intro h hmem <;> rw [mem_sent_fields] at hmem <;>
    simp [h, build_tools] at hmem

/-- C9 witness: `declared_definition_absent_fields` at the all-absent
definition block. -/
theorem declared_definition_absent_fields_witness :
    "model" ∉ sent_fields ⟨none, none, none, none, none, none, none⟩
    ∧ "tools" ∉ sent_fields ⟨none, none, none, none, none, none, none⟩ :=
  ⟨(declared_definition_absent_fields ⟨none, none, none, none, none, none, none⟩).1 rfl,
   (declared_definition_absent_fields ⟨none, none, none, none, none, none, none⟩).2.2.2.2.1 rfl⟩

/-- C1: `process_agent` in CreateMissing mode never issues a
`create_version` call, in UpdateExisting mode never issues a `create`
call, the calls issued by Sync are exactly the union (here: concatenation,
one of the two being empty) of what CreateMissing and UpdateExisting would
each issue on the same inputs, and presence is determined solely by name
membership in the remote index: two indices with the same key list yield
identical results. -/
theorem reconciler_modes :
    (∀ p existing n d ds,
        process_agent Mode.createMissing p existing ≠ some (RemoteCall.createVersion n d ds))
    ∧ (∀ p existing n d ds,
        process_agent Mode.updateExisting p existing ≠ some (RemoteCall.create n d ds))
    ∧ (∀ p existing,
        (process_agent Mode.sync p existing).toList
          = (process_agent Mode.createMissing p existing).toList
            ++ (process_agent Mode.updateExisting p existing).toList)
    ∧ (∀ mode p e1 e2, e1.map Prod.fst = e2.map Prod.fst →
        process_agent mode p e1 = process_agent mode p e2) := by
  refine ⟨?_, ?_, ?_, ?_⟩
  · intro p existing n d ds h
    rcases p with ⟨pname, pdesc, pmeta, pdef⟩
    cases pname with
    | none => simp [process_agent] at h
    | some nm =>
      cases pdef with
      | none => simp [process_agent] at h
      | some db =>
        by_cases hnm : nm = ""
        · simp [process_agent, hnm] at h
        · cases hex : existing.any (fun kv => kv.1 = nm) <;>
            simp [process_agent, hnm, hex] at h
  · intro p existing n d ds h
    rcases p with ⟨pname, pdesc, pmeta, pdef⟩
    cases pname with
    | none => simp [process_agent] at h
    | some nm =>
      cases pdef with
      | none => simp [process_agent] at h
      | some db =>
        by_cases hnm : nm = ""
        · simp [process_agent, hnm] at h
        · cases hex : existing.any (fun kv => kv.1 = nm) <;>
            simp [process_agent, hnm, hex] at h
  · intro p existing
    rcases p with ⟨pname, pdesc, pmeta, pdef⟩
    cases pname with
    | none => simp [process_agent]
    | some nm =>
      cases pdef with
      | none => simp [process_agent]
      | some db =>
        by_cases hnm : nm = ""
        · simp [process_agent, hnm]
        · cases hex : existing.any (fun kv => kv.1 = nm) <;>
            simp [process_agent, hnm, hex]
  · intro mode p e1 e2 hkeys
    rcases p with ⟨pname, pdesc, pmeta, pdef⟩
    cases pname with
    | none => rfl
    | some nm =>
      cases pdef with
      | none => rfl
      | some db =>
        have hany : e1.any (fun kv => kv.1 = nm) = e2.any (fun kv => kv.1 = nm) := by
          rw [existsMem_any_fst, existsMem_any_fst, hkeys]
        simp only [process_agent, hany]

/-- C1 witness: `reconciler_modes` evaluated at a concrete declared agent
against two concrete remote indices with the same name set. -/
theorem reconciler_modes_witness :
    process_agent Mode.sync ⟨some "A", none, none, some ⟨none, none, none, none, none, none, none⟩⟩
        [("A", "id1")]
      = process_agent Mode.sync ⟨some "A", none, none, some ⟨none, none, none, none, none, none, none⟩⟩
        [("A", "id2")]
    ∧ process_agent Mode.createMissing
        ⟨some "A", none, none, some ⟨none, none, none, none, none, none, none⟩⟩ []
        ≠ some (RemoteCall.createVersion "A" ⟨some "prompt", none, none, none, none, none, none⟩ none) :=
  ⟨reconciler_modes.2.2.2 Mode.sync
      ⟨some "A", none, none, some ⟨none, none, none, none, none, none, none⟩⟩
      [("A", "id1")] [("A", "id2")] (by decide),
   reconciler_modes.1 ⟨some "A", none, none, some ⟨none, none, none, none, none, none, none⟩⟩
      [] "A" ⟨some "prompt", none, none, none, none, none, none⟩ none⟩

/-- C10: both maintenance operations skip — issue no `create_version`
call — when the fetched latest version has no definition, or when its
definition lacks a model identifier. -/
theorem maintenance_skip_guards :
    ∀ a : AgentVersion,
      (a.definition = none →
        update_mcp_tools_to_auto_approve a = none ∧ remove_temperature_params a = none)
      ∧ (∀ d, a.definition = some d → d.model = none →
        update_mcp_tools_to_auto_approve a = none ∧ remove_temperature_params a = none) := by
  intro a
  constructor
  · intro h
    exact ⟨by simp [update_mcp_tools_to_auto_approve, h],
           by simp [remove_temperature_params, h]⟩
  · intro d hd hm
    exact ⟨by simp [update_mcp_tools_to_auto_approve, hd, hm],
           by simp [remove_temperature_params, hd, hm]⟩

/-- C10 witness: `maintenance_skip_guards` at a version with no
definition and at a version whose definition lacks a model. -/
theorem maintenance_skip_guards_witness :
    (update_mcp_tools_to_auto_approve ⟨"a", "1", none, none⟩ = none
      ∧ remove_temperature_params ⟨"a", "1", none, none⟩ = none)
    ∧ (update_mcp_tools_to_auto_approve
          ⟨"a", "1", some ⟨none, none, none, none, none, none, none⟩, none⟩ = none
      ∧ remove_temperature_params
          ⟨"a", "1", some ⟨none, none, none, none, none, none, none⟩, none⟩ = none) :=
  ⟨(maintenance_skip_guards ⟨"a", "1", none, none⟩).1 rfl,
   (maintenance_skip_guards ⟨"a", "1", some ⟨none, none, none, none, none, none, none⟩, none⟩).2
      ⟨none, none, none, none, none, none, none⟩ rfl rfl⟩

theorem mcpMap_not_empty (ts : List Tool) (h : mcpChanged ts = true) :
    (mcpMapTools ts).isEmpty = false := by
  cases ts with
  | nil => simp [mcpChanged] at h
  | cons t rest => simp [mcpMapTools]

theorem update_mcp_inversion (a : AgentVersion) (c : CreateVersionCall)
    (h : update_mcp_tools_to_auto_approve a = some c) :
    ∃ d m, a.definition = some d ∧ d.model = some m ∧ m ≠ "" ∧
      mcpChanged (d.tools.getD []) = true ∧
      c = ⟨a.name,
           ⟨d.kind, some m, d.instructions, d.temperature, d.top_p,
            some (mcpMapTools (d.tools.getD [])), d.text⟩,
           a.description⟩ := by
  unfold update_mcp_tools_to_auto_approve at h
  rcases ha : a.definition with _ | d
  · simp [ha] at h
  · simp only [ha] at h
    rcases hm : d.model with _ | m
    · simp [hm] at h
    · simp only [hm] at h
      by_cases hme : m = ""
      · simp [if_pos hme] at h
      · simp only [if_neg hme] at h
        by_cases hch : mcpChanged (d.tools.getD []) = true
        · simp only [if_pos hch, mcpMap_not_empty _ hch, Bool.false_eq_true, if_false,
            Option.some.injEq] at h
          exact ⟨d, m, rfl, hm, hme, hch, h.symm⟩
        · simp only [if_neg hch] at h
          exact absurd h (by simp)

theorem update_agent_mcp_inversion (a : AgentVersion) (c : CreateVersionCall)
    (h : update_agent_mcp_approval a = some c) :
    ∃ d, a.definition = some d ∧ (d.tools.getD []).isEmpty = false ∧
      (d.tools.getD []).any isTypedMcp = true ∧
      c = ⟨a.name,
           ⟨none, some (d.model.getD ""), d.instructions, d.temperature, d.top_p,
            some ((d.tools.getD []).map typedMcpStep), none⟩,
           none⟩ := by
  unfold update_agent_mcp_approval at h
  rcases ha : a.definition with _ | d
  · simp [ha] at h
  · simp only [ha] at h
    by_cases hempty : (d.tools.getD []).isEmpty = true
    · simp only [if_pos hempty] at h
      exact absurd h (by simp)
    · simp only [if_neg hempty] at h
      by_cases hany : (d.tools.getD []).any isTypedMcp = true
      · simp only [if_pos hany, Option.some.injEq] at h
        exact ⟨d, rfl, by simpa using hempty, hany, h.symm⟩
      · simp only [if_neg hany] at h
        exact absurd h (by simp)

/-- C6: if a definition contains no MCP-shaped tool, the MCP-Approval
transform is a no-op and issues no `create_version` call (in either
script); and the internal `changed` flag is true exactly when at least one
tool takes the MCP rewrite branch. -/
theorem mcp_noop_and_changed_flag :
    (∀ a d, a.definition = some d → mcpChanged (d.tools.getD []) = false →
        update_mcp_tools_to_auto_approve a = none)
    ∧ (∀ ts, mcpChanged ts = true ↔ ∃ t ∈ ts, isMcpShaped t = true)
    ∧ (∀ a d, a.definition = some d → (d.tools.getD []).any isTypedMcp = false →
        update_agent_mcp_approval a = none) := by
  refine ⟨?_, ?_, ?_⟩
  · intro a d hd hch
    unfold update_mcp_tools_to_auto_approve
    rcases hm : d.model with _ | m
    · simp [hd, hm]
    · by_cases hme : m = ""
      · simp [hd, hm, hme]
      · simp [hd, hm, hme, hch]
  · intro ts
    simp [mcpChanged, List.any_eq_true]
  · intro a d hd hany
    unfold update_agent_mcp_approval
    by_cases hempty : (d.tools.getD []).isEmpty = true
    · simp [hd, hempty]
    · simp [hd, hempty, hany]

/-- C6 witness: a definition whose only tool is a web-search tool makes
both transforms skip. -/
theorem mcp_noop_and_changed_flag_witness :
    update_mcp_tools_to_auto_approve
        ⟨"a", "1", some ⟨none, some "m", none, none, none, some [Tool.webSearch], none⟩, none⟩
      = none
    ∧ update_agent_mcp_approval
        ⟨"a", "1", some ⟨none, some "m", none, none, none, some [Tool.webSearch], none⟩, none⟩
      = none
    ∧ (mcpChanged [Tool.webSearch] = true ↔ ∃ t ∈ [Tool.webSearch], isMcpShaped t = true) :=
  ⟨mcp_noop_and_changed_flag.1
      ⟨"a", "1", some ⟨none, some "m", none, none, none, some [Tool.webSearch], none⟩, none⟩
      ⟨none, some "m", none, none, none, some [Tool.webSearch], none⟩ rfl (by decide),
   mcp_noop_and_changed_flag.2.2
      ⟨"a", "1", some ⟨none, some "m", none, none, none, some [Tool.webSearch], none⟩, none⟩
      ⟨none, some "m", none, none, none, some [Tool.webSearch], none⟩ rfl (by decide),
   mcp_noop_and_changed_flag.2.1 [Tool.webSearch]⟩

/-- C7: the MCP-Approval transform is idempotent — republishing the
definition produced by `update_mcp_tools_to_auto_approve` and applying the
transform again issues a `create_version` call with exactly the same
definition (and description). -/
theorem mcp_transform_idempotent :
    ∀ a c, update_mcp_tools_to_auto_approve a = some c →
      update_mcp_tools_to_auto_approve ⟨c.agent_name, a.version, some c.definition, c.description⟩
        = some c := by
  intro a c h
  rcases update_mcp_inversion a c h with ⟨d, m, ha, hm, hme, hch, hc⟩
  subst hc
  unfold update_mcp_tools_to_auto_approve
  simp [if_neg hme, Option.getD_some, mcpChanged_mapTools, hch, mcpMapTools_idem,
    mcpMap_not_empty _ hch]

/-- C7 witness: `mcp_transform_idempotent` at a concrete agent whose MCP
tool initially requires approval. -/
theorem mcp_transform_idempotent_witness :
    update_mcp_tools_to_auto_approve
        ⟨"a", "1",
         some ⟨none, some "m", none, none, none,
               some [Tool.mcpTool ⟨"l", "u", none, none, some "never"⟩], none⟩,
         none⟩
      = some ⟨"a",
              ⟨none, some "m", none, none, none,
               some [Tool.mcpTool ⟨"l", "u", none, none, some "never"⟩], none⟩,
              none⟩ :=
  mcp_transform_idempotent
    ⟨"a", "1",
     some ⟨none, some "m", none, none, none,
           some [Tool.mcpTool ⟨"l", "u", none, none, some "prompt"⟩], none⟩,
     none⟩
    ⟨"a",
     ⟨none, some "m", none, none, none,
      some [Tool.mcpTool ⟨"l", "u", none, none, some "never"⟩], none⟩,
     none⟩
    (by decide)

/-- C3 counterexample: the claim requires MCP tools represented as raw
mappings with `type == "mcp"` to keep `server_label`, `server_url`,
`connection_ref` and `allowed_tools` exactly.  `update_mcp_tools_to_auto_approve`
reads those fields back with `getattr(tool, ..., default)`, which on a raw
dict always yields the default: the rewritten tool's label is `""`, not
the input's `"lbl"`. -/
theorem mcp_approval_claim_cex :
    update_mcp_tools_to_auto_approve
        ⟨"a", "1",
         some ⟨none, some "m", none, none, none,
               some [Tool.rawDict [("type", PyVal.str "mcp"), ("server_label", PyVal.str "lbl")]],
               none⟩,
         none⟩
      = some ⟨"a",
              ⟨none, some "m", none, none, none,
               some [Tool.mcpTool ⟨"", "", none, none, some "never"⟩], none⟩,
              none⟩
    ∧ dgetStrD [("type", PyVal.str "mcp"), ("server_label", PyVal.str "lbl")] "server_label" ""
        = "lbl"
    ∧ ("" : String) ≠ "lbl" := by
  refine ⟨by decide, by decide, by decide⟩

/-- C3 amended: in `update_mcp_tools_to_auto_approve`, every typed MCP
tool is replaced by a copy whose approval mode is `"never"` with
`server_label`, `server_url`, `project_connection_id` and `allowed_tools`
preserved, every non-MCP-shaped tool passes through unchanged, a raw
mapping with `type == "mcp"` is rewritten to approval `"never"` but with
default fields (`""` label and url, no connection, no allowed tools)
rather than preserved ones, and all non-tool fields (kind, model,
instructions, temperature, top_p, text/response_format, description) are
copied through.  In `update_agent_mcp_approval`, only typed MCP tools are
rewritten (fields preserved, approval `"never"`), raw `type == "mcp"`
mappings pass through un-rewritten, model/instructions/temperature/top_p
are copied, and kind, text/response_format and description are dropped
(an absent model is sent as `""`). -/
theorem mcp_approval_transform_amended :
    (∀ a d m c, a.definition = some d → d.model = some m → m ≠ "" →
        update_mcp_tools_to_auto_approve a = some c →
          c.agent_name = a.name ∧ c.description = a.description
          ∧ c.definition.kind = d.kind ∧ c.definition.model = some m
          ∧ c.definition.instructions = d.instructions
          ∧ c.definition.temperature = d.temperature
          ∧ c.definition.top_p = d.top_p
          ∧ c.definition.text = d.text
          ∧ c.definition.tools = some (mcpMapTools (d.tools.getD [])))
    ∧ (∀ m0 : McpData, mcpStep (Tool.mcpTool m0) =
        Tool.mcpTool ⟨m0.server_label, m0.server_url, m0.project_connection_id,
          m0.allowed_tools, some "never"⟩)
    ∧ (∀ t, isMcpShaped t = false → mcpStep t = t)
    ∧ (∀ d0 : Dict, dget d0 "type" = some (PyVal.str "mcp") →
        mcpStep (Tool.rawDict d0) = Tool.mcpTool ⟨"", "", none, none, some "never"⟩)
    ∧ (∀ a d c, a.definition = some d → update_agent_mcp_approval a = some c →
          c.agent_name = a.name ∧ c.description = none
          ∧ c.definition.kind = none ∧ c.definition.text = none
          ∧ c.definition.model = some (d.model.getD "")
          ∧ c.definition.instructions = d.instructions
          ∧ c.definition.temperature = d.temperature
          ∧ c.definition.top_p = d.top_p
          ∧ c.definition.tools = some ((d.tools.getD []).map typedMcpStep))
    ∧ (∀ m0 : McpData, typedMcpStep (Tool.mcpTool m0) =
        Tool.mcpTool ⟨m0.server_label, m0.server_url, m0.project_connection_id,
          m0.allowed_tools, some "never"⟩)
    ∧ (∀ d0 : Dict, typedMcpStep (Tool.rawDict d0) = Tool.rawDict d0) := by
  refine ⟨?_, ?_, ?_, ?_, ?_, ?_, ?_⟩
  · intro a d m c hd hm hme h
    rcases update_mcp_inversion a c h with ⟨d', m', ha', hm', hme', hch', hc⟩
    rw [hd] at ha'
    injection ha' with hdd
    subst hdd
    rw [hm] at hm'
    injection hm' with hmm
    subst hmm
    subst hc
    exact ⟨rfl, rfl, rfl, rfl, rfl, rfl, rfl, rfl, rfl⟩
  · intro m0
    rfl
  · intro t h
    simp [mcpStep, h]
  · intro d0 h
    simp [mcpStep, isMcpShaped, h, rewriteMcpTool, attrLabel, attrUrl, attrConn, attrAllowed]
  · intro a d c hd h
    rcases update_agent_mcp_inversion a c h with ⟨d', ha', hne', hany', hc⟩
    rw [hd] at ha'
    injection ha' with hdd
    subst hdd
    subst hc
    exact ⟨rfl, rfl, rfl, rfl, rfl, rfl, rfl, rfl, rfl⟩
  · intro m0
    rfl
  · intro d0
    rfl

/-- C3 amended witness: the amended transform theorem evaluated at a
typed-MCP agent and at a raw `type == "mcp"` mapping. -/
theorem mcp_approval_transform_amended_witness :
    (⟨"a",
      ⟨none, some "m", none, none, none,
       some [Tool.mcpTool ⟨"l", "u", none, none, some "never"⟩], none⟩,
      none⟩ : CreateVersionCall).definition.tools
      = some (mcpMapTools ((⟨none, some "m", none, none, none,
          some [Tool.mcpTool ⟨"l", "u", none, none, none⟩], none⟩ : AgentDefinition).tools.getD []))
    ∧ typedMcpStep (Tool.rawDict [("type", PyVal.str "mcp")])
        = Tool.rawDict [("type", PyVal.str "mcp")] :=
  ⟨(mcp_approval_transform_amended.1
      ⟨"a", "1",
       some ⟨none, some "m", none, none, none,
             some [Tool.mcpTool ⟨"l", "u", none, none, none⟩], none⟩,
       none⟩
      ⟨none, some "m", none, none, none,
       some [Tool.mcpTool ⟨"l", "u", none, none, none⟩], none⟩
      "m"
      ⟨"a",
       ⟨none, some "m", none, none, none,
        some [Tool.mcpTool ⟨"l", "u", none, none, some "never"⟩], none⟩,
       none⟩
      rfl rfl (by decide) (by decide)).2.2.2.2.2.2.2.2,
   mcp_approval_transform_amended.2.2.2.2.2.2 [("type", PyVal.str "mcp")]⟩

/-- C4 counterexample: the claim says the Sampling-Strip transform leaves
all non-sampling fields unchanged, but `remove_temperature_for_gpt5`
omits `text` (response_format) — and `kind` — from the
`PromptAgentDefinition` it publishes: a definition carrying a response
format loses it. -/
theorem sampling_strip_claim_cex :
    remove_temperature_for_gpt5
        ⟨"a", "1",
         some ⟨some "prompt", some "gpt-5", none, some 1, none, none, some (PyVal.str "fmt")⟩,
         none⟩
      = some ⟨"a", ⟨none, some "gpt-5", none, none, none, none, none⟩, none⟩
    ∧ (⟨some "prompt", some "gpt-5", none, some 1, none, none,
        some (PyVal.str "fmt")⟩ : AgentDefinition).text = some (PyVal.str "fmt")
    ∧ (⟨none, some "gpt-5", none, none, none, none, none⟩ : AgentDefinition).text = none := by
  refine ⟨by decide, rfl, rfl⟩

/-- C4 amended: both strip functions always publish `temperature = absent`
and `top_p = absent` and neither branches on the model identifier (the
GPT-5 check is advisory, outside the transform).
`remove_temperature_params` copies kind, model, instructions,
text/response_format, description and the tool sequence unchanged (an
empty tool list is normalized to absent), while
`remove_temperature_for_gpt5` copies model, instructions and tools but
drops kind, text/response_format and the description. -/
theorem sampling_strip_amended :
    (∀ a d m c, a.definition = some d → d.model = some m → m ≠ "" →
        remove_temperature_params a = some c →
          c.definition.temperature = none ∧ c.definition.top_p = none
          ∧ c.agent_name = a.name ∧ c.description = a.description
          ∧ c.definition.kind = d.kind ∧ c.definition.model = some m
          ∧ c.definition.instructions = d.instructions ∧ c.definition.text = d.text
          ∧ (d.tools ≠ some [] → c.definition.tools = d.tools))
    ∧ (∀ a d c, a.definition = some d → remove_temperature_for_gpt5 a = some c →
          c.definition.temperature = none ∧ c.definition.top_p = none
          ∧ c.agent_name = a.name ∧ c.description = none
          ∧ c.definition.kind = none ∧ c.definition.text = none
          ∧ c.definition.model = d.model ∧ c.definition.instructions = d.instructions
          ∧ (d.tools ≠ some [] → c.definition.tools = d.tools)) := by
  constructor
  · intro a d m c hd hm hme h
    unfold remove_temperature_params at h
    simp only [hd, hm, if_neg hme, Option.some.injEq] at h
    subst h
    refine ⟨rfl, rfl, rfl, rfl, rfl, rfl, rfl, rfl, ?_⟩
    intro hnil
    rcases ht : d.tools with _ | l
    · simp [ht]
    · cases l with
      | nil => exact absurd ht hnil
      | cons x xs => simp [ht]
  · intro a d c hd h
    unfold remove_temperature_for_gpt5 at h
    simp only [hd, Option.some.injEq] at h
    subst h
    refine ⟨rfl, rfl, rfl, rfl, rfl, rfl, rfl, rfl, ?_⟩
    intro hnil
    rcases ht : d.tools with _ | l
    · simp [ht]
    · cases l with
      | nil => exact absurd ht hnil
      | cons x xs => simp [ht]

/-- C4 amended witness: `sampling_strip_amended` evaluated at a concrete
agent carrying temperature, top_p, a tool list and a response format. -/
theorem sampling_strip_amended_witness :
    (⟨"a",
      ⟨some "prompt", some "m", some "i", none, none, some [Tool.webSearch],
       some (PyVal.str "f")⟩,
      some "desc"⟩ : CreateVersionCall).definition.temperature = none
    ∧ (⟨"a",
        ⟨some "prompt", some "m", some "i", none, none, some [Tool.webSearch],
         some (PyVal.str "f")⟩,
        some "desc"⟩ : CreateVersionCall).definition.tools
      = (⟨some "prompt", some "m", some "i", some 1, some 1, some [Tool.webSearch],
          some (PyVal.str "f")⟩ : AgentDefinition).tools :=
  ⟨(sampling_strip_amended.1
      ⟨"a", "1",
       some ⟨some "prompt", some "m", some "i", some 1, some 1, some [Tool.webSearch],
             some (PyVal.str "f")⟩,
       some "desc"⟩
      ⟨some "prompt", some "m", some "i", some 1, some 1, some [Tool.webSearch],
       some (PyVal.str "f")⟩
      "m"
      ⟨"a",
       ⟨some "prompt", some "m", some "i", none, none, some [Tool.webSearch],
        some (PyVal.str "f")⟩,
       some "desc"⟩
      rfl rfl (by decide) (by decide)).1,
   (sampling_strip_amended.1
      ⟨"a", "1",
       some ⟨some "prompt", some "m", some "i", some 1, some 1, some [Tool.webSearch],
             some (PyVal.str "f")⟩,
       some "desc"⟩
      ⟨some "prompt", some "m", some "i", some 1, some 1, some [Tool.webSearch],
       some (PyVal.str "f")⟩
      "m"
      ⟨"a",
       ⟨some "prompt", some "m", some "i", none, none, some [Tool.webSearch],
        some (PyVal.str "f")⟩,
       some "desc"⟩
      rfl rfl (by decide) (by decide)).2.2.2.2.2.2.2.2 (by decide)⟩

/-- C8 counterexample: the claim says a failure on one declared agent must
not abort processing of the remaining agents.  The `for info in selection`
loop of `main` has no per-item exception handler, so when the create call
for agent `"A"` raises, agent `"B"` — which would have produced its own
create call — is never processed. -/
theorem batch_abort_claim_cex :
    run_batch Mode.sync [] (fun c => c.target = "A")
        [⟨some "A", none, none, some ⟨none, none, none, none, none, none, none⟩⟩,
         ⟨some "B", none, none, some ⟨none, none, none, none, none, none, none⟩⟩]
      = ([RemoteCall.create "A" ⟨some "prompt", none, none, none, none, none, none⟩ none], true)
    ∧ process_agent Mode.sync
        ⟨some "B", none, none, some ⟨none, none, none, none, none, none, none⟩⟩ []
      = some (RemoteCall.create "B" ⟨some "prompt", none, none, none, none, none, none⟩ none) := by
  refine ⟨by decide, by decide⟩

/-- C8 amended: a failing create/update call aborts the batch: the agents
before the failing one are processed normally (their calls are issued in
input order), the failing call itself is attempted, and no agent after it
is processed. -/
theorem batch_abort_amended :
    ∀ mode existing fails ps p qs c,
      (∀ c' ∈ batchCalls mode existing ps, fails c' = false) →
      process_agent mode p existing = some c → fails c = true →
      run_batch mode existing fails (ps ++ p :: qs)
        = (batchCalls mode existing ps ++ [c], true) := by
  intro mode existing fails ps
  induction ps with
  | nil =>
    intro p qs c hok hp hf
    simp [run_batch, hp, hf, batchCalls]
  | cons q ps ih =>
    intro p qs c hok hp hf
    have hok' : ∀ c' ∈ batchCalls mode existing ps, fails c' = false := by
      intro c' hc'
      refine hok c' ?_
      simp only [batchCalls, List.flatMap_cons] at *
      exact List.mem_append_right _ hc'
    cases hq : process_agent mode q existing with
    | none =>
      have step : run_batch mode existing fails ((q :: ps) ++ p :: qs)
          = run_batch mode existing fails (ps ++ p :: qs) := by
        simp [run_batch, hq]
      rw [step, ih p qs c hok' hp hf]
      simp [batchCalls, hq]
    | some c' =>
      have hfc' : fails c' = false := by
        refine hok c' ?_
        simp [batchCalls, hq]
      have hrec := ih p qs c hok' hp hf
      simp [run_batch, hq, hfc', hrec, batchCalls]

/-- C8 amended witness: `batch_abort_amended` on a two-agent batch whose
second create call fails: the first agent's call is issued, the failing
call is attempted, and the batch aborts. -/
theorem batch_abort_amended_witness :
    run_batch Mode.sync [] (fun c => c.target = "B")
        [⟨some "A", none, none, some ⟨none, none, none, none, none, none, none⟩⟩,
         ⟨some "B", none, none, some ⟨none, none, none, none, none, none, none⟩⟩]
      = ([RemoteCall.create "A" ⟨some "prompt", none, none, none, none, none, none⟩ none,
          RemoteCall.create "B" ⟨some "prompt", none, none, none, none, none, none⟩ none],
         true) :=
  batch_abort_amended Mode.sync [] (fun c => c.target = "B")
    [⟨some "A", none, none, some ⟨none, none, none, none, none, none, none⟩⟩]
    ⟨some "B", none, none, some ⟨none, none, none, none, none, none, none⟩⟩ []
    (RemoteCall.create "B" ⟨some "prompt", none, none, none, none, none, none⟩ none)
    (by decide) (by decide) (by decide)

end FoundryAI
